import Mathlib

/-!
Shallow embedding of the offline asset-synchronization subsystem of the AAC
application (the AssetProvider cache manager in src/src/data/loadAnimals.js):
data model, version guard, download orchestrator and progress reporting.

Modelling conventions:
  * IndexedDB object stores become lists of records keyed by their keyPath;
    put is the usual keyed upsert (replace in place, or append when absent).
  * The CacheStorage API becomes a list of (namespace name, cached URLs).
  * Network effects are parameters: the manifest fetch result is an Option,
    per-URL fetch outcomes are a Boolean-valued function, the monotone clock
    used by the progress throttle is a function from completion index to time.
  * The bounded worker pool of prefetchUrls is modelled as sequential
    processing of the shared queue: workers dequeue indices in increasing
    order and each completion increments the shared done counter; the
    properties proved below depend only on the done counter and cache state,
    which evolve the same way under any interleaving of completions.
  * The unused IndexedDB object store for per-animal records is omitted; the
    code only ever clears it.
-/

namespace AAC

/-- One entry of the static content index (animals.json): the fields the
cache subsystem reads. -/
structure Animal where
  id : String
  category : String
deriving Repr, DecidableEq

/-- One record of the categories object store (keyPath: name). -/
structure CategoryRecord where
  name : String
  downloadedAt : Nat
  animalCount : Nat
deriving Repr, DecidableEq

/-- One entry of the manifest assets map, as a JS object. The code reads only
the files field (the values of the files map, in key order; absent or falsy
files is none). The direct field holds role-to-path pairs sitting directly on
the entry object, which the code never reads. -/
structure ManifestEntry where
  files : Option (List String)
  direct : List (String × String)
deriving Repr, DecidableEq

/-- The asset manifest: a version and a map from content-item id to its
manifest entry. -/
structure Manifest where
  version : String
  assets : List (String × ManifestEntry)
deriving Repr, DecidableEq

/-- The persistent store (IndexedDB LioraAssets): the categories object store
and the version value in the metadata store. -/
structure DB where
  categories : List CategoryRecord
  metadataVersion : Option String
deriving Repr, DecidableEq

/-- In-memory React state of the AssetProvider component. -/
structure MemState where
  downloadedCategories : List String
  isInitialDownload : Bool
  currentVersion : Option String
  downloadingCategory : Option String
  downloadProgress : ℚ
deriving Repr, DecidableEq

/-- The whole mutable world the subsystem touches: persistent store, cache
storage (namespace name, cached URLs), in-memory state. -/
structure SysState where
  db : DB
  caches : List (String × List String)
  mem : MemState
deriving Repr, DecidableEq

/-- Environment of one downloadCategory call: the static content index, the
memoized manifest load result (none models a failed fetch or non-ok status),
per-URL fetch outcomes, the clock sampled at each completion, and the wall
clock used for the downloadedAt stamp. -/
structure Env where
  animals : List Animal
  manifest : Option Manifest
  fetchOk : String → Bool
  time : Nat → Nat
  now : Nat

/-- Does pat occur at the start of s (character lists)? -/
def listStartsWith : List Char → List Char → Bool
  | [], _ => true
  | _ :: _, [] => false
  | p :: ps, c :: cs => p == c && listStartsWith ps cs

/-- Does pat occur anywhere inside s (character lists)? -/
def listHasSub (pat : List Char) : List Char → Bool
  | [] => listStartsWith pat []
  | c :: cs => listStartsWith pat (c :: cs) || listHasSub pat cs

/-- JS String.prototype.includes. -/
def strIncludes (s pat : String) : Bool :=
  listHasSub pat.data s.data

/-- The fixed download priority order of categories. -/
def CATEGORY_PRIORITY : List String :=
  ["Farm", "Domestic", "Forest", "Shallow Water", "Coral Reef",
   "Jungle", "Nocturnal", "Arctic", "Deep Sea", "Ultra Deep Sea"]

/-- Name of the content cache namespace opened by prefetchUrls. -/
def assetCacheName : String := "liora-assets"

/-- The substring rule selecting this app's cache namespaces in clearAllData. -/
def matchesApp (name : String) : Bool :=
  strIncludes name "liora" || strIncludes name "workbox"

/-- db.get on the categories store. -/
def dbGetCategory (db : DB) (name : String) : Option CategoryRecord :=
  db.categories.find? (fun c => c.name == name)

/-- db.put on the categories store: keyed upsert on name. -/
def dbPutCategory (db : DB) (r : CategoryRecord) : DB :=
  if db.categories.any (fun c => c.name == r.name) then
    { db with categories :=
        db.categories.map (fun c => if c.name == r.name then r else c) }
  else
    { db with categories := db.categories ++ [r] }

/-- Number of CategoryRecords stored under a given name. -/
def categoryCount (db : DB) (X : String) : Nat :=
  db.categories.countP (fun c => c.name == X)

/-- cache.match: is url stored under namespace ns? -/
def cacheLookup (caches : List (String × List String)) (ns url : String) : Bool :=
  match caches.find? (fun c => c.1 == ns) with
  | some c => c.2.contains url
  | none => false

/-- cache.put: store url under namespace ns (caches.open creates ns). -/
def cacheInsert (caches : List (String × List String)) (ns url : String) :
    List (String × List String) :=
  if caches.any (fun c => c.1 == ns) then
    caches.map (fun c => if c.1 == ns then (c.1, c.2 ++ [url]) else c)
  else
    caches ++ [(ns, [url])]

/-- new Set of prev with x added: keep order, append when absent. -/
def insertNew (l : List String) (x : String) : List String :=
  if l.contains x then l else l ++ [x]

/-- The four convention-based fallback URLs for one content item id. -/
def conventionUrls (id : String) : List String :=
  ["/assets/images/toy_mode/" ++ id ++ ".webp",
   "/assets/images/real_mode/" ++ id ++ ".webp",
   "/assets/audio/names/" ++ id ++ "_name.mp3",
   "/assets/audio/facts/" ++ id ++ "_fact.mp3"]

/-- The manifest lookup performed per animal: the value of entry.files when
the entry exists and its files field is truthy. -/
def manifestFiles (manifest : Option Manifest) (id : String) :
    Option (List String) :=
  match manifest with
  | some m =>
    match m.assets.find? (fun p => p.1 == id) with
    | some entry => entry.2.files
    | none => none
  | none => none

/-- URL resolution step of downloadCategory: for each animal of the category,
use the manifest entry when it has a truthy files map (push each truthy
relative path prefixed with the asset base path), else fall back to the four
convention URLs derived from the animal id. -/
def resolveUrls (manifest : Option Manifest) (animals : List Animal)
    (categoryName : String) : List String :=
  (animals.filter (fun a => a.category == categoryName)).flatMap (fun a =>
    match manifestFiles manifest a.id with
    | some paths =>
      (paths.filter (fun p => p != "")).map (fun p => "/assets/" ++ p)
    | none => conventionUrls a.id)

/-- One pass of the worker body for a single dequeued URL: skip the network
when the cache already has the URL, otherwise fetch, caching the body on
success; individual failures are swallowed. Returns the new cache state and
whether a network fetch was attempted. -/
def prefetchStep (fetchOk : String → Bool) (caches : List (String × List String))
    (url : String) : List (String × List String) × Bool :=
  if cacheLookup caches assetCacheName url then (caches, false)
  else if fetchOk url then (cacheInsert caches assetCacheName url, true)
  else (caches, true)

/-- The drain loop of prefetchUrls over the shared queue: each completion
increments done and reports it when the throttle window passed or the queue
is exhausted, updating lastUiUpdate only on report. Returns (cache state,
reported done counts, URLs fetched over the network). -/
def prefetchLoop (fetchOk : String → Bool) (time : Nat → Nat) (total : Nat) :
    List String → List (String × List String) → Nat → Nat →
    List (String × List String) × List Nat × List String
  | [], caches, _, _ => (caches, [], [])
  | url :: rest, caches, done0, last =>
    let step := prefetchStep fetchOk caches url
    let done := done0 + 1
    let t := time done0
    if 150 < t - last ∨ done = total then
      let r := prefetchLoop fetchOk time total rest step.1 done t
      (r.1, done :: r.2.1, (if step.2 then [url] else []) ++ r.2.2)
    else
      let r := prefetchLoop fetchOk time total rest step.1 done last
      (r.1, r.2.1, (if step.2 then [url] else []) ++ r.2.2)

/-- prefetchUrls: immediate return on an empty URL list, else the worker
pool drains the queue. -/
def prefetchUrls (fetchOk : String → Bool) (time : Nat → Nat)
    (urls : List String) (caches : List (String × List String)) :
    List (String × List String) × List Nat × List String :=
  if urls.isEmpty then (caches, [], [])
  else prefetchLoop fetchOk time urls.length urls caches 0 0

/-- The cache-deletion loop of clearAllData: iterate all cache names in
order, deleting those matching the app substring rule; a failing delete
throws out of the loop, leaving that namespace and every later one. Returns
the remaining caches and whether the loop completed without throwing. -/
def deleteMatchingCaches (deleteOk : String → Bool) :
    List (String × List String) → List (String × List String) × Bool
  | [] => ([], true)
  | c :: cs =>
    if matchesApp c.1 then
      if deleteOk c.1 then deleteMatchingCaches deleteOk cs
      else (c :: cs, false)
    else
      let r := deleteMatchingCaches deleteOk cs
      (c :: r.1, r.2)

/-- clearAllData: clear the categories store, delete matching cache
namespaces, then reset the in-memory state; when a cache delete throws, the
store is already cleared but the state resets are skipped and the error
propagates (second component false). -/
def clearAllData (deleteOk : String → Bool) (s : SysState) : SysState × Bool :=
  let db1 : DB := { s.db with categories := [] }
  let r := deleteMatchingCaches deleteOk s.caches
  if r.2 then
    ({ db := db1, caches := r.1,
       mem := { s.mem with
                downloadedCategories := [],
                isInitialDownload := true } }, true)
  else
    ({ db := db1, caches := r.1, mem := s.mem }, false)

/-- The try/catch block of checkDownloadStatus: manifest fetch and version
compare. Returns the resulting state and whether the mismatch branch took
its early return (which skips reloading the category set). A failed
manifest fetch, or an error thrown by the purge, is caught and leaves the
function to fall through. -/
def versionGuardPhase (manifestFetch : Option Manifest)
    (deleteOk : String → Bool) (s : SysState) : SysState × Bool :=
  match manifestFetch with
  | none => (s, false)
  | some manifest =>
    match s.db.metadataVersion with
    | some stored =>
      if stored ≠ manifest.version then
        let r := clearAllData deleteOk s
        if r.2 then
          ({ r.1 with
              db := { r.1.db with metadataVersion := some manifest.version },
              mem := { r.1.mem with
                        currentVersion := some manifest.version } }, true)
        else
          (r.1, false)
      else
        ({ s with mem := { s.mem with
            currentVersion := some manifest.version } }, false)
    | none =>
      ({ s with
          db := { s.db with metadataVersion := some manifest.version },
          mem := { s.mem with
                    currentVersion := some manifest.version } }, false)

/-- checkDownloadStatus: the startup version guard followed by loading the
downloaded-category set from the persistent store (skipped when the
mismatch branch returned early). -/
def checkDownloadStatus (manifestFetch : Option Manifest)
    (deleteOk : String → Bool) (s : SysState) : SysState :=
  let r := versionGuardPhase manifestFetch deleteOk s
  if r.2 then r.1
  else
    let downloaded := r.1.db.categories.map (fun c => c.name)
    { r.1 with mem := { r.1.mem with
        downloadedCategories := downloaded,
        isInitialDownload :=
          decide (downloaded.length < CATEGORY_PRIORITY.length) } }

/-- downloadCategory: memory-set check, persistent-store precondition check,
URL resolution (manifest or convention fallback), prefetch with progress,
then the CategoryRecord write and state updates (with the finally block
clearing the per-category indicators). Returns the new state, the sequence
of progress reports (done counts), and the URLs fetched over the network. -/
def downloadCategory (env : Env) (s : SysState) (categoryName : String) :
    SysState × List Nat × List String :=
  if s.mem.downloadedCategories.contains categoryName then (s, [], [])
  else
    match dbGetCategory s.db categoryName with
    | some _ =>
      ({ s with mem := { s.mem with
          downloadedCategories :=
            insertNew s.mem.downloadedCategories categoryName,
          isInitialDownload := false } }, [], [])
    | none =>
      let urls := resolveUrls env.manifest env.animals categoryName
      let total := urls.length
      let r := prefetchUrls env.fetchOk env.time urls s.caches
      let db1 := dbPutCategory s.db
        { name := categoryName, downloadedAt := env.now, animalCount := total }
      let newSet := insertNew s.mem.downloadedCategories categoryName
      let init1 :=
        if CATEGORY_PRIORITY.length ≤ s.mem.downloadedCategories.length + 1
        then false else s.mem.isInitialDownload
      ({ db := db1, caches := r.1,
         mem := { s.mem with
            downloadedCategories := newSet,
            isInitialDownload := init1,
            downloadingCategory := none,
            downloadProgress := 0 } }, r.2.1, r.2.2)

/-- getDownloadProgress: percent of priority categories downloaded. -/
def getDownloadProgress (s : SysState) : ℚ :=
  ((s.mem.downloadedCategories.length : ℚ) /
    (CATEGORY_PRIORITY.length : ℚ)) * 100

/-- isCategoryDownloaded: pure read of the in-memory downloaded set. -/
def isCategoryDownloaded (s : SysState) (categoryName : String) : Bool :=
  s.mem.downloadedCategories.contains categoryName

/-- The state of a fresh profile: empty store, empty caches, initial memory
state of the AssetProvider component. -/
def initState : SysState :=
  { db := { categories := [], metadataVersion := none },
    caches := [],
    mem := { downloadedCategories := [], isInitialDownload := true,
             currentVersion := none, downloadingCategory := none,
             downloadProgress := 0 } }

/-- The URL resolution described by the specification (for comparison with
resolveUrls): on manifest success, each content item's assets entry is
itself the asset-role-to-path map, and every listed path becomes one URL
prefixed with the asset base path; the convention fallback applies only to
items without an entry or on manifest failure. -/
def specResolveUrls (manifest : Option Manifest) (animals : List Animal)
    (categoryName : String) : List String :=
  (animals.filter (fun a => a.category == categoryName)).flatMap (fun a =>
    match manifest with
    | some m =>
      match m.assets.find? (fun p => p.1 == a.id) with
      | some entry => entry.2.direct.map (fun rp => "/assets/" ++ rp.2)
      | none => conventionUrls a.id
    | none => conventionUrls a.id)

/-! Concrete fixtures used by witnesses and counterexamples. -/

/-- A manifest whose version bumps past the stored marker v1. -/
def c2Manifest : Manifest := { version := "v2", assets := [] }

/-- Cache deletion that always succeeds. -/
def c2DeleteOk : String → Bool := fun _ => true

/-- A state with marker v1, three CategoryRecords, one matching and one
foreign cache namespace, and the in-memory set loaded from the store. -/
def c2State : SysState :=
  { db := { categories :=
              [{ name := "Farm", downloadedAt := 1, animalCount := 4 },
               { name := "Arctic", downloadedAt := 2, animalCount := 8 },
               { name := "Jungle", downloadedAt := 3, animalCount := 0 }],
            metadataVersion := some "v1" },
    caches := [("liora-assets", ["/assets/a.webp"]),
               ("unrelated-cache", ["/x"]),
               ("workbox-precache-v2", ["/p"])],
    mem := { downloadedCategories := ["Farm", "Arctic", "Jungle"],
             isInitialDownload := true, currentVersion := none,
             downloadingCategory := none, downloadProgress := 0 } }

/-- Cache deletion that fails exactly on the liora-assets namespace. -/
def c10DeleteOk : String → Bool := fun n => !(n == "liora-assets")

/-- Two matching namespaces; deleting the first of them fails. -/
def c10State : SysState :=
  { initState with
      caches := [("liora-assets", []), ("workbox-precache-v2", ["/p"])] }

/-- One Farm animal for the manifest-shape scenarios. -/
def c6Animal : Animal := { id := "cow", category := "Farm" }

/-- A manifest in the documented shape: the assets entry for cow maps roles
directly to relative paths and carries no files field. -/
def c6Manifest : Manifest :=
  { version := "v1",
    assets := [("cow",
      { files := none,
        direct := [("toy_image", "img/cow_toy.webp"),
                   ("real_image", "img/cow_real.webp"),
                   ("name_audio", "audio/cow_name.mp3"),
                   ("fact_audio", "audio/cow_fact.mp3")] })] }

/-- A manifest whose cow entry carries the files field the code reads; one
listed path is falsy and is skipped. -/
def c6wManifest : Manifest :=
  { version := "v1",
    assets := [("cow",
      { files := some ["img/cow_toy.webp", "", "audio/cow_name.mp3"],
        direct := [] })] }

/-- Environment with an empty content index: every category resolves zero
URLs and completes instantly. -/
def c8Env : Env :=
  { animals := [], manifest := none, fetchOk := fun _ => true,
    time := fun _ => 0, now := 0 }

/-- A session that downloads the ten priority categories and one extra
category outside the priority list. -/
def c8State : SysState :=
  (CATEGORY_PRIORITY ++ ["Alphabet"]).foldl
    (fun s n => (downloadCategory c8Env s n).1) initState

/-- Witness environment: two Farm animals, failed manifest, one of the two
animals' assets failing to fetch, completion timestamps spaced beyond the
progress throttle. -/
def cwEnv : Env :=
  { animals := [{ id := "cow", category := "Farm" },
                { id := "pig", category := "Farm" }],
    manifest := none,
    fetchOk := fun u => strIncludes u "cow",
    time := fun k => k * 200,
    now := 7 }

/-! Helper lemmas shared by several results. -/

/-- insertNew never shrinks the set. -/
theorem insertNew_length_ge (l : List String) (x : String) :
    l.length ≤ (insertNew l x).length := by
  unfold insertNew
  by_cases h : x ∈ l
  · simp [h]
  · simp [h, List.length_append]

/-- insertNew of an absent element grows the set by one. -/
theorem insertNew_length_new (l : List String) (x : String) (h : x ∉ l) :
    (insertNew l x).length = l.length + 1 := by
  unfold insertNew
  simp [h, List.length_append]

/-- insertNew puts the element in the set. -/
theorem insertNew_mem_self (l : List String) (x : String) :
    x ∈ insertNew l x := by
  unfold insertNew
  by_cases h : x ∈ l
  · simp [h]
  · simp [h]

/-- getLast? ignores the head of a list with a nonempty tail. -/
theorem getLast?_cons_of_ne_nil {α : Type} (a : α) {l : List α} (h : l ≠ []) :
    (a :: l).getLast? = l.getLast? := by
  cases l with
  | nil => exact absurd rfl h
  | cons b l2 => exact List.getLast?_cons_cons

/-- The done counts reported by the prefetch drain loop are strictly
increasing and all exceed the starting count. -/
theorem prefetchLoop_reports_mono (fetchOk : String → Bool) (time : Nat → Nat)
    (total : Nat) (urls : List String) :
    ∀ caches done0 last,
      List.Chain' (· < ·)
        (prefetchLoop fetchOk time total urls caches done0 last).2.1 ∧
      ∀ x ∈ (prefetchLoop fetchOk time total urls caches done0 last).2.1,
        done0 < x := by
  induction urls with
  | nil =>
    intro caches done0 last
    simp [prefetchLoop]
  | cons url rest ih =>
    intro caches done0 last
    by_cases h : 150 < time done0 - last ∨ done0 + 1 = total
    · simp only [prefetchLoop, h, if_true]
      obtain ⟨hch, hbd⟩ :=
        ih (prefetchStep fetchOk caches url).1 (done0 + 1) (time done0)
      constructor
      · rw [List.chain'_cons']
        exact ⟨fun y hy => hbd y (List.mem_of_mem_head? hy), hch⟩
      · intro x hx
        rcases List.mem_cons.mp hx with rfl | hx2
        · omega
        · have := hbd x hx2
          omega
    · simp only [prefetchLoop, h, if_false]
      obtain ⟨hch, hbd⟩ :=
        ih (prefetchStep fetchOk caches url).1 (done0 + 1) last
      refine ⟨hch, fun x hx => ?_⟩
      have := hbd x hx
      omega

/-- On a nonempty queue whose length fills the remaining budget, the last
report of the prefetch drain loop is the total count: the completion of the
final URL always reports, bypassing the throttle. -/
theorem prefetchLoop_reports_last (fetchOk : String → Bool) (time : Nat → Nat)
    (total : Nat) (urls : List String) :
    ∀ caches done0 last, urls ≠ [] → done0 + urls.length = total →
      (prefetchLoop fetchOk time total urls caches done0 last).2.1.getLast? =
        some total := by
  induction urls with
  | nil =>
    intro caches done0 last h
    exact absurd rfl h
  | cons url rest ih =>
    intro caches done0 last _ hlen
    by_cases hr : rest = []
    · subst hr
      have htot : done0 + 1 = total := by simpa using hlen
      simp [prefetchLoop, htot]
    · have hlen2 : done0 + 1 + rest.length = total := by
        simp only [List.length_cons] at hlen
        omega
      have hl1 := ih (prefetchStep fetchOk caches url).1 (done0 + 1)
        (time done0) hr hlen2
      have hl2 := ih (prefetchStep fetchOk caches url).1 (done0 + 1)
        last hr hlen2
      by_cases h : 150 < time done0 - last ∨ done0 + 1 = total
      · simp only [prefetchLoop, h, if_true]
        have hne : (prefetchLoop fetchOk time total rest
            (prefetchStep fetchOk caches url).1 (done0 + 1)
            (time done0)).2.1 ≠ [] := by
          intro hemp
          rw [hemp] at hl1
          simp at hl1
        rw [getLast?_cons_of_ne_nil _ hne]
        exact hl1
      · simp only [prefetchLoop, h, if_false]
        exact hl2

/-- A name absent from the store has zero records. -/
theorem countP_name_zero (l : List CategoryRecord) (X : String)
    (h : l.find? (fun c => c.name == X) = none) :
    l.countP (fun c => c.name == X) = 0 := by
  rw [List.countP_eq_zero]
  intro a ha
  exact List.find?_eq_none.mp h a ha

/-- In a store with pairwise-distinct names, a name that is found has
exactly one record. -/
theorem countP_name_one (l : List CategoryRecord) (X : String)
    (hn : (l.map (fun c => c.name)).Nodup)
    (hs : (l.find? (fun c => c.name == X)).isSome = true) :
    l.countP (fun c => c.name == X) = 1 := by
  induction l with
  | nil => simp at hs
  | cons c l ih =>
    rw [List.map_cons, List.nodup_cons] at hn
    by_cases hc : c.name = X
    · subst hc
      rw [List.countP_cons_of_pos _ _ (by simp)]
      have hz : l.countP (fun d => d.name == c.name) = 0 := by
        rw [List.countP_eq_zero]
        intro d hd hbd
        exact hn.1 (by
          rw [← (by simpa using hbd : d.name = c.name)]
          exact List.mem_map_of_mem _ hd)
      omega
    · rw [List.countP_cons_of_neg _ _ (by simpa using hc)]
      apply ih hn.2
      rw [List.find?_cons_of_neg _ (by simpa using hc)] at hs
      exact hs

/-- Putting a record under an absent name makes it retrievable. -/
theorem dbGetCategory_put_new (db : DB) (r : CategoryRecord)
    (h : dbGetCategory db r.name = none) :
    dbGetCategory (dbPutCategory db r) r.name = some r := by
  unfold dbGetCategory at h ⊢
  have hany : db.categories.any (fun c => c.name == r.name) = false := by
    rw [List.any_eq_false]
    intro c hc
    exact List.find?_eq_none.mp h c hc
  unfold dbPutCategory
  simp only [hany, Bool.false_eq_true, if_false]
  rw [List.find?_append, h]
  simp

/-- Putting a record under an absent name yields exactly one record. -/
theorem categoryCount_put_new (db : DB) (r : CategoryRecord)
    (h : dbGetCategory db r.name = none) :
    categoryCount (dbPutCategory db r) r.name = 1 := by
  unfold dbGetCategory at h
  have hany : db.categories.any (fun c => c.name == r.name) = false := by
    rw [List.any_eq_false]
    intro c hc
    exact List.find?_eq_none.mp h c hc
  have hz := countP_name_zero db.categories r.name h
  unfold categoryCount dbPutCategory
  simp only [hany, Bool.false_eq_true, if_false, List.countP_append, hz]
  simp

/-- A category already in the in-memory set short-circuits: the call is a
no-op success with no reports and no fetches. -/
theorem downloadCategory_noop (env : Env) (s : SysState) (C : String)
    (h : C ∈ s.mem.downloadedCategories) :
    downloadCategory env s C = (s, [], []) := by
  unfold downloadCategory
  simp [h]

/-- After any downloadCategory call the category is in the in-memory set. -/
theorem downloadCategory_mem_self (env : Env) (s : SysState) (C : String) :
    C ∈ (downloadCategory env s C).1.mem.downloadedCategories := by
  unfold downloadCategory
  by_cases hc : C ∈ s.mem.downloadedCategories
  · simp [hc]
  · simp only [List.elem_eq_mem, hc, decide_False, Bool.false_eq_true, if_false]
    cases hdb : dbGetCategory s.db C with
    | some r => simpa using insertNew_mem_self s.mem.downloadedCategories C
    | none => simpa using insertNew_mem_self s.mem.downloadedCategories C

/-- Under the keyed-store invariants, one downloadCategory call leaves
exactly one record for the category. -/
theorem downloadCategory_count_one (env : Env) (s : SysState) (X : String)
    (hnodup : (s.db.categories.map (fun c => c.name)).Nodup)
    (hmem : ∀ n ∈ s.mem.downloadedCategories,
      (dbGetCategory s.db n).isSome = true) :
    categoryCount (downloadCategory env s X).1.db X = 1 := by
  unfold downloadCategory
  by_cases hc : X ∈ s.mem.downloadedCategories
  · simp only [hc, if_true, List.elem_eq_mem, decide_True]
    exact countP_name_one s.db.categories X hnodup (hmem X hc)
  · simp only [List.elem_eq_mem, hc, decide_False, Bool.false_eq_true, if_false]
    cases hdb : dbGetCategory s.db X with
    | some r =>
      have hs : (s.db.categories.find? (fun c => c.name == X)).isSome = true := by
        unfold dbGetCategory at hdb
        rw [hdb]
        rfl
      simpa [categoryCount] using countP_name_one s.db.categories X hnodup hs
    | none =>
      simpa using categoryCount_put_new s.db
        { name := X, downloadedAt := env.now,
          animalCount := (resolveUrls env.manifest env.animals X).length } hdb

/-- After any downloadCategory call the in-memory downloaded set is at
least as large as before. -/
theorem downloadCategory_set_grows (env : Env) (s : SysState) (C : String) :
    s.mem.downloadedCategories.length ≤
      (downloadCategory env s C).1.mem.downloadedCategories.length := by
  unfold downloadCategory
  by_cases hc : C ∈ s.mem.downloadedCategories
  · simp [hc]
  · simp only [List.elem_eq_mem, hc, decide_False, Bool.false_eq_true, if_false]
    cases hdb : dbGetCategory s.db C with
    | some r => simpa using insertNew_length_ge s.mem.downloadedCategories C
    | none => simpa using insertNew_length_ge s.mem.downloadedCategories C

/-- getDownloadProgress in closed form: ten times the downloaded count. -/
theorem getDownloadProgress_eq (s : SysState) :
    getDownloadProgress s =
      (s.mem.downloadedCategories.length : ℚ) * 10 := by
  unfold getDownloadProgress
  have h10 : (CATEGORY_PRIORITY.length : ℚ) = 10 := by
    norm_num [CATEGORY_PRIORITY]
  rw [h10]
  ring

/-- When every matching namespace deletes successfully, the deletion loop of
clearAllData completes and removes exactly the matching namespaces. -/
theorem deleteMatchingCaches_all_ok (deleteOk : String → Bool)
    (cs : List (String × List String))
    (h : ∀ c ∈ cs, matchesApp c.1 = true → deleteOk c.1 = true) :
    deleteMatchingCaches deleteOk cs =
      (cs.filter (fun c => !(matchesApp c.1)), true) := by
  induction cs with
  | nil => rfl
  | cons c cs ih =>
    have hc := h c (List.mem_cons_self c cs)
    have hrest : ∀ d ∈ cs, matchesApp d.1 = true → deleteOk d.1 = true :=
      fun d hd => h d (List.mem_cons_of_mem c hd)
    by_cases hm : matchesApp c.1 = true
    · simp [deleteMatchingCaches, hm, hc hm, ih hrest, List.filter_cons]
    · simp at hm
      simp [deleteMatchingCaches, hm, ih hrest, List.filter_cons]

/-- The fallback branch: resolveUrls with a failed manifest is the
concatenation of the convention URLs of the category's animals. -/
theorem resolveUrls_none_eq (animals : List Animal) (C : String) :
    resolveUrls none animals C =
      (animals.filter (fun a => a.category == C)).flatMap
        (fun a => conventionUrls a.id) := rfl

/-- Length of a concatenation of convention URL blocks. -/
theorem flatMap_conventionUrls_length (l : List Animal) :
    (l.flatMap (fun a => conventionUrls a.id)).length = 4 * l.length := by
  induction l with
  | nil => rfl
  | cons a l ih =>
    rw [List.flatMap_cons, List.length_append, ih]
    simp only [conventionUrls, List.length_cons, List.length_nil]
    omega

/-! Claim theorems. -/

/-- Claim C3: if the startup manifest fetch fails or returns a non-success
status, checkDownloadStatus leaves every stored CategoryRecord and every
cached asset untouched (no purge, no VersionMarker write), and the
in-memory downloaded-categories set is populated from the stored records,
so availability queries reflect the pre-existing offline state. -/
theorem c3_version_check_fails_open (deleteOk : String → Bool) (s : SysState) :
    (checkDownloadStatus none deleteOk s).db = s.db ∧
    (checkDownloadStatus none deleteOk s).caches = s.caches ∧
    (checkDownloadStatus none deleteOk s).mem.downloadedCategories =
      s.db.categories.map (fun c => c.name) ∧
    ∀ n, isCategoryDownloaded (checkDownloadStatus none deleteOk s) n =
      (s.db.categories.map (fun c => c.name)).contains n :=
  ⟨rfl, rfl, rfl, fun _ => rfl⟩

/-- Claim C5: when the manifest fetch fails, downloadCategory resolves
exactly 4 times the number of content items of the category, namely, for
each item id, the four convention paths (toy image, real image, name audio,
fact audio), each prefixed with the asset base path. -/
theorem c5_convention_fallback (animals : List Animal) (C : String) :
    (resolveUrls none animals C).length =
      4 * (animals.filter (fun a => a.category == C)).length ∧
    resolveUrls none animals C =
      (animals.filter (fun a => a.category == C)).flatMap (fun a =>
        ["/assets/images/toy_mode/" ++ a.id ++ ".webp",
         "/assets/images/real_mode/" ++ a.id ++ ".webp",
         "/assets/audio/names/" ++ a.id ++ "_name.mp3",
         "/assets/audio/facts/" ++ a.id ++ "_fact.mp3"]) := by
  constructor
  · rw [resolveUrls_none_eq]
    exact flatMap_conventionUrls_length _
  · rfl

/-- Claim C2: on a version mismatch between the stored marker and the
fetched manifest, checkDownloadStatus deletes every CategoryRecord, removes
every cache namespace matching the app substring rule, writes the remote
version as the new marker, empties the in-memory downloaded set and raises
the initial-download flag. -/
theorem c2_version_bump_purges (m : Manifest) (deleteOk : String → Bool)
    (s : SysState) (v : String)
    (hstored : s.db.metadataVersion = some v)
    (hne : v ≠ m.version)
    (hdel : ∀ n, matchesApp n = true → deleteOk n = true) :
    (checkDownloadStatus (some m) deleteOk s).db.categories = [] ∧
    (checkDownloadStatus (some m) deleteOk s).db.metadataVersion =
      some m.version ∧
    (checkDownloadStatus (some m) deleteOk s).caches =
      s.caches.filter (fun c => !(matchesApp c.1)) ∧
    (checkDownloadStatus (some m) deleteOk s).mem.downloadedCategories = [] ∧
    (checkDownloadStatus (some m) deleteOk s).mem.isInitialDownload = true := by
  have hd := deleteMatchingCaches_all_ok deleteOk s.caches
    (fun c _ hm => hdel c.1 hm)
  simp [checkDownloadStatus, versionGuardPhase, clearAllData, hstored, hne, hd]

/-- Witness for C2 at a concrete store with three records, two matching
cache namespaces and a bumped version. -/
theorem c2_version_bump_purges_witness :
    c2State.db.metadataVersion = some "v1" ∧
    ("v1" : String) ≠ c2Manifest.version ∧
    (∀ n, matchesApp n = true → c2DeleteOk n = true) ∧
    ((checkDownloadStatus (some c2Manifest) c2DeleteOk c2State).db.categories
        = [] ∧
      (checkDownloadStatus (some c2Manifest) c2DeleteOk
          c2State).db.metadataVersion = some c2Manifest.version ∧
      (checkDownloadStatus (some c2Manifest) c2DeleteOk c2State).caches =
        c2State.caches.filter (fun c => !(matchesApp c.1)) ∧
      (checkDownloadStatus (some c2Manifest) c2DeleteOk
          c2State).mem.downloadedCategories = [] ∧
      (checkDownloadStatus (some c2Manifest) c2DeleteOk
          c2State).mem.isInitialDownload = true) :=
  ⟨rfl, by decide, fun n _ => rfl,
    c2_version_bump_purges c2Manifest c2DeleteOk c2State "v1" rfl (by decide)
      (fun n _ => rfl)⟩

/-- Claim C10 counterexample: during a full purge with two matching cache
namespaces, a failing delete on the first one leaves the second matching
namespace undeleted, and the error propagates out of clearAllData: deletion
of the remaining matching namespaces does not proceed. -/
theorem c10_counterexample :
    matchesApp "liora-assets" = true ∧
    c10DeleteOk "liora-assets" = false ∧
    matchesApp "workbox-precache-v2" = true ∧
    ((clearAllData c10DeleteOk c10State).1.caches.any
      (fun c => c.1 == "workbox-precache-v2")) = true ∧
    (clearAllData c10DeleteOk c10State).2 = false := by
  refine ⟨by decide, by decide, by decide, by decide, by decide⟩

/-- Claim C10 (amended): when deleting one matching namespace fails, the
deletion loop aborts: matching namespaces before the failing one were
already deleted, but the failing namespace and every namespace after it
(matching or not) are left in place, and the error propagates out of
clearAllData. -/
theorem c10_failed_delete_aborts (deleteOk : String → Bool)
    (pre post : List (String × List String)) (c : String × List String)
    (db0 : DB) (mem0 : MemState)
    (hm : matchesApp c.1 = true) (hf : deleteOk c.1 = false)
    (hp : ∀ d ∈ pre, matchesApp d.1 = true → deleteOk d.1 = true) :
    (clearAllData deleteOk
        { db := db0, caches := pre ++ c :: post, mem := mem0 }).1.caches =
      pre.filter (fun d => !(matchesApp d.1)) ++ c :: post ∧
    (clearAllData deleteOk
        { db := db0, caches := pre ++ c :: post, mem := mem0 }).2 = false := by
  have key : ∀ pre2 : List (String × List String),
      (∀ d ∈ pre2, matchesApp d.1 = true → deleteOk d.1 = true) →
      deleteMatchingCaches deleteOk (pre2 ++ c :: post) =
        (pre2.filter (fun d => !(matchesApp d.1)) ++ c :: post, false) := by
    intro pre2
    induction pre2 with
    | nil =>
      intro _
      simp [deleteMatchingCaches, hm, hf]
    | cons d pre2 ih =>
      intro hp2
      have hd := hp2 d (List.mem_cons_self d pre2)
      have hrest : ∀ e ∈ pre2, matchesApp e.1 = true → deleteOk e.1 = true :=
        fun e he => hp2 e (List.mem_cons_of_mem d he)
      by_cases hdm : matchesApp d.1 = true
      · simp [deleteMatchingCaches, hdm, hd hdm, ih hrest, List.filter_cons]
      · simp only [Bool.not_eq_true] at hdm
        simp [deleteMatchingCaches, hdm, ih hrest, List.filter_cons]
  simp [clearAllData, key pre hp]

/-- Witness for the amended C10: a matching namespace before the failing one
is deleted, the one after it survives, the error propagates. -/
theorem c10_failed_delete_aborts_witness :
    matchesApp "liora-assets" = true ∧
    c10DeleteOk "liora-assets" = false ∧
    (∀ d ∈ [(("workbox-old", ["/q"]) : String × List String),
            (("foreign", []) : String × List String)],
      matchesApp d.1 = true → c10DeleteOk d.1 = true) ∧
    ((clearAllData c10DeleteOk
        { db := { categories := [], metadataVersion := none },
          caches := [("workbox-old", ["/q"]), ("foreign", [])] ++
            ("liora-assets", []) :: [("workbox-precache-v2", ["/p"])],
          mem := initState.mem }).1.caches =
      [(("workbox-old", ["/q"]) : String × List String),
       (("foreign", []) : String × List String)].filter
          (fun d => !(matchesApp d.1)) ++
        ("liora-assets", []) :: [("workbox-precache-v2", ["/p"])] ∧
    (clearAllData c10DeleteOk
        { db := { categories := [], metadataVersion := none },
          caches := [("workbox-old", ["/q"]), ("foreign", [])] ++
            ("liora-assets", []) :: [("workbox-precache-v2", ["/p"])],
          mem := initState.mem }).2 = false) :=
  ⟨by decide, by decide, by decide,
    c10_failed_delete_aborts c10DeleteOk
      [("workbox-old", ["/q"]), ("foreign", [])]
      [("workbox-precache-v2", ["/p"])] ("liora-assets", [])
      { categories := [], metadataVersion := none } initState.mem
      (by decide) (by decide) (by decide)⟩

/-- Claim C6 counterexample: with a manifest in the documented shape (roles
mapped directly on the assets entry, no files field), downloadCategory does
not turn the listed paths into URLs: it uses the four convention URLs,
because the code reads only the files field of the entry. -/
theorem c6_counterexample :
    resolveUrls (some c6Manifest) [c6Animal] "Farm" = conventionUrls "cow" ∧
    specResolveUrls (some c6Manifest) [c6Animal] "Farm" =
      ["/assets/img/cow_toy.webp", "/assets/img/cow_real.webp",
       "/assets/audio/cow_name.mp3", "/assets/audio/cow_fact.mp3"] ∧
    resolveUrls (some c6Manifest) [c6Animal] "Farm" ≠
      specResolveUrls (some c6Manifest) [c6Animal] "Farm" ∧
    "/assets/img/cow_toy.webp" ∉
      resolveUrls (some c6Manifest) [c6Animal] "Farm" := by
  refine ⟨by decide, by decide, by decide, by decide⟩

/-- Claim C6 (amended): when the manifest loads and every content item of
the category has an assets entry whose files field is present, each listed
truthy path of each item becomes exactly one URL prefixed with the asset
base path, and the convention fallback is not used for those items. -/
theorem c6_files_manifest_urls (m : Manifest) (animals : List Animal)
    (C : String)
    (h : ∀ a ∈ animals.filter (fun a => a.category == C),
      (manifestFiles (some m) a.id).isSome = true) :
    resolveUrls (some m) animals C =
      (animals.filter (fun a => a.category == C)).flatMap (fun a =>
        (((manifestFiles (some m) a.id).getD []).filter
            (fun p => p != "")).map (fun p => "/assets/" ++ p)) := by
  unfold resolveUrls
  apply List.flatMap_congr
  intro a ha
  have hs := h a ha
  cases hf : manifestFiles (some m) a.id with
  | none => rw [hf] at hs; simp at hs
  | some ps => rfl

/-- Witness for the amended C6: the cow entry lists three paths, one of
them falsy, yielding two URLs and no convention fallback. -/
theorem c6_files_manifest_urls_witness :
    (∀ a ∈ [c6Animal].filter (fun a => a.category == "Farm"),
      (manifestFiles (some c6wManifest) a.id).isSome = true) ∧
    resolveUrls (some c6wManifest) [c6Animal] "Farm" =
      ([c6Animal].filter (fun a => a.category == "Farm")).flatMap (fun a =>
        (((manifestFiles (some c6wManifest) a.id).getD []).filter
            (fun p => p != "")).map (fun p => "/assets/" ++ p)) :=
  ⟨by decide, c6_files_manifest_urls c6wManifest [c6Animal] "Farm" (by decide)⟩

/-- Claim C8 counterexample: a reachable state (eleven successful
downloadCategory calls from the initial state, one of them for a category
outside the priority list) in which getDownloadProgress exceeds 100. -/
theorem c8_counterexample :
    getDownloadProgress c8State = 110 ∧
    ¬ getDownloadProgress c8State ≤ 100 := by
  have hlen : c8State.mem.downloadedCategories.length = 11 := by decide
  constructor
  · rw [getDownloadProgress_eq, hlen]
    norm_num
  · rw [getDownloadProgress_eq, hlen]
    norm_num

/-- Claim C8 (amended): in every state, getDownloadProgress returns 100
times the ratio of downloaded categories to the priority-list length, is
nonnegative, and never decreases across downloadCategory calls; the value
is moreover at most 100 whenever at most priority-list-many categories are
downloaded (in particular whenever all downloaded categories come from the
priority list). -/
theorem c8_progress_formula_bounded_monotone (s : SysState) :
    getDownloadProgress s =
      ((s.mem.downloadedCategories.length : ℚ) /
        (CATEGORY_PRIORITY.length : ℚ)) * 100 ∧
    0 ≤ getDownloadProgress s ∧
    (s.mem.downloadedCategories.length ≤ CATEGORY_PRIORITY.length →
      getDownloadProgress s ≤ 100) ∧
    ∀ env C, getDownloadProgress s ≤
      getDownloadProgress (downloadCategory env s C).1 := by
  refine ⟨rfl, ?_, ?_, ?_⟩
  · rw [getDownloadProgress_eq]
    positivity
  · intro h
    have h10 : s.mem.downloadedCategories.length ≤ 10 := h
    rw [getDownloadProgress_eq]
    have hq : (s.mem.downloadedCategories.length : ℚ) ≤ 10 := by
      exact_mod_cast h10
    linarith
  · intro env C
    rw [getDownloadProgress_eq, getDownloadProgress_eq]
    have hle := downloadCategory_set_grows env s C
    have hq : (s.mem.downloadedCategories.length : ℚ) ≤
        ((downloadCategory env s C).1.mem.downloadedCategories.length : ℚ) := by
      exact_mod_cast hle
    linarith

/-- Witness for the amended C8 at the initial state, also discharging the
bound's premise there. -/
theorem c8_progress_formula_bounded_monotone_witness :
    (getDownloadProgress initState =
      ((initState.mem.downloadedCategories.length : ℚ) /
        (CATEGORY_PRIORITY.length : ℚ)) * 100 ∧
    0 ≤ getDownloadProgress initState ∧
    (initState.mem.downloadedCategories.length ≤ CATEGORY_PRIORITY.length →
      getDownloadProgress initState ≤ 100) ∧
    ∀ env C, getDownloadProgress initState ≤
      getDownloadProgress (downloadCategory env initState C).1) ∧
    getDownloadProgress initState ≤ 100 :=
  ⟨c8_progress_formula_bounded_monotone initState,
   (c8_progress_formula_bounded_monotone initState).2.2.1 (by decide)⟩

/-- Claim C1: calling downloadCategory twice in sequence leaves exactly one
CategoryRecord for the category in the persistent store, and the second
call performs no asset fetches, no progress reports and no store writes: it
returns as a no-op success, leaving the state of the first call untouched.
The hypotheses are the keyed-store invariants: record names are unique
(IndexedDB keyPath) and every in-memory downloaded category is backed by a
record. -/
theorem c1_downloadCategory_idempotent (env env2 : Env) (s : SysState)
    (X : String)
    (hnodup : (s.db.categories.map (fun c => c.name)).Nodup)
    (hmem : ∀ n ∈ s.mem.downloadedCategories,
      (dbGetCategory s.db n).isSome = true) :
    categoryCount (downloadCategory env2
        (downloadCategory env s X).1 X).1.db X = 1 ∧
    (downloadCategory env2 (downloadCategory env s X).1 X).1 =
      (downloadCategory env s X).1 ∧
    (downloadCategory env2 (downloadCategory env s X).1 X).2.1 = [] ∧
    (downloadCategory env2 (downloadCategory env s X).1 X).2.2 = [] := by
  have h1 := downloadCategory_mem_self env s X
  have h2 := downloadCategory_noop env2 (downloadCategory env s X).1 X h1
  rw [h2]
  exact ⟨downloadCategory_count_one env s X hnodup hmem, rfl, rfl, rfl⟩

/-- Witness for C1: two sequential downloads of Farm from a fresh state. -/
theorem c1_downloadCategory_idempotent_witness :
    (initState.db.categories.map (fun c => c.name)).Nodup ∧
    (∀ n ∈ initState.mem.downloadedCategories,
      (dbGetCategory initState.db n).isSome = true) ∧
    (categoryCount (downloadCategory cwEnv
        (downloadCategory cwEnv initState "Farm").1 "Farm").1.db "Farm" = 1 ∧
     (downloadCategory cwEnv
        (downloadCategory cwEnv initState "Farm").1 "Farm").1 =
       (downloadCategory cwEnv initState "Farm").1 ∧
     (downloadCategory cwEnv
        (downloadCategory cwEnv initState "Farm").1 "Farm").2.1 = [] ∧
     (downloadCategory cwEnv
        (downloadCategory cwEnv initState "Farm").1 "Farm").2.2 = []) :=
  ⟨by decide, by decide,
    c1_downloadCategory_idempotent cwEnv cwEnv initState "Farm"
      (by decide) (by decide)⟩

/-- Claim C4: whatever subset of the category's URLs fails to fetch (the
fetch-outcome function is arbitrary), downloadCategory on a fresh category
still succeeds: it writes a CategoryRecord whose count is the full resolved
total, isCategoryDownloaded becomes true, and the final progress report
still counts every URL (failed ones included) as done. -/
theorem c4_best_effort_download (env : Env) (s : SysState) (C : String)
    (hmem : C ∉ s.mem.downloadedCategories)
    (hdb : dbGetCategory s.db C = none) :
    dbGetCategory (downloadCategory env s C).1.db C =
      some { name := C, downloadedAt := env.now,
             animalCount := (resolveUrls env.manifest env.animals C).length } ∧
    isCategoryDownloaded (downloadCategory env s C).1 C = true ∧
    (resolveUrls env.manifest env.animals C ≠ [] →
      (downloadCategory env s C).2.1.getLast? =
        some (resolveUrls env.manifest env.animals C).length) := by
  unfold downloadCategory
  simp only [List.elem_eq_mem, hmem, decide_False, Bool.false_eq_true,
    if_false, hdb]
  refine ⟨?_, ?_, ?_⟩
  · exact dbGetCategory_put_new s.db _ hdb
  · simp [isCategoryDownloaded, insertNew_mem_self]
  · intro hne
    unfold prefetchUrls
    have he : (resolveUrls env.manifest env.animals C).isEmpty = false := by
      simpa using hne
    simp only [he, Bool.false_eq_true, if_false]
    exact prefetchLoop_reports_last env.fetchOk env.time
      (resolveUrls env.manifest env.animals C).length
      (resolveUrls env.manifest env.animals C) s.caches 0 0 hne (by omega)

/-- Witness for C4: the pig animal's four fetches fail, the record still
appears with the full count of 8 and the category reads as downloaded. -/
theorem c4_best_effort_download_witness :
    ("Farm" ∉ initState.mem.downloadedCategories) ∧
    dbGetCategory initState.db "Farm" = none ∧
    (dbGetCategory (downloadCategory cwEnv initState "Farm").1.db "Farm" =
      some { name := "Farm", downloadedAt := cwEnv.now,
             animalCount :=
               (resolveUrls cwEnv.manifest cwEnv.animals "Farm").length } ∧
     isCategoryDownloaded (downloadCategory cwEnv initState "Farm").1 "Farm"
       = true ∧
     (resolveUrls cwEnv.manifest cwEnv.animals "Farm" ≠ [] →
       (downloadCategory cwEnv initState "Farm").2.1.getLast? =
         some (resolveUrls cwEnv.manifest cwEnv.animals "Farm").length)) :=
  ⟨by decide, by decide,
    c4_best_effort_download cwEnv initState "Farm" (by decide) (by decide)⟩

/-- Claim C7: within one downloadCategory call on a fresh category, the
sequence of progress reports is non-decreasing, and when the category
resolves at least one URL the final report equals the full total (the
done-equals-total report bypasses the throttle). -/
theorem c7_progress_reports_monotone (env : Env) (s : SysState) (C : String)
    (hmem : C ∉ s.mem.downloadedCategories)
    (hdb : dbGetCategory s.db C = none) :
    List.Chain' (· ≤ ·) (downloadCategory env s C).2.1 ∧
    (resolveUrls env.manifest env.animals C ≠ [] →
      (downloadCategory env s C).2.1.getLast? =
        some (resolveUrls env.manifest env.animals C).length) := by
  unfold downloadCategory
  simp only [List.elem_eq_mem, hmem, decide_False, Bool.false_eq_true,
    if_false, hdb]
  constructor
  · unfold prefetchUrls
    by_cases he : (resolveUrls env.manifest env.animals C).isEmpty = true
    · simp [he]
    · simp only [he, Bool.false_eq_true, if_false]
      exact ((prefetchLoop_reports_mono env.fetchOk env.time
        (resolveUrls env.manifest env.animals C).length
        (resolveUrls env.manifest env.animals C)) s.caches 0 0).1.imp
        (fun a b hab => Nat.le_of_lt hab)
  · intro hne
    unfold prefetchUrls
    have he : (resolveUrls env.manifest env.animals C).isEmpty = false := by
      simpa using hne
    simp only [he, Bool.false_eq_true, if_false]
    exact prefetchLoop_reports_last env.fetchOk env.time
      (resolveUrls env.manifest env.animals C).length
      (resolveUrls env.manifest env.animals C) s.caches 0 0 hne (by omega)

/-- Witness for C7: a Farm download with spaced timestamps reports a
non-decreasing sequence ending at the total of 8. -/
theorem c7_progress_reports_monotone_witness :
    ("Farm" ∉ initState.mem.downloadedCategories) ∧
    dbGetCategory initState.db "Farm" = none ∧
    (List.Chain' (· ≤ ·) (downloadCategory cwEnv initState "Farm").2.1 ∧
     (resolveUrls cwEnv.manifest cwEnv.animals "Farm" ≠ [] →
       (downloadCategory cwEnv initState "Farm").2.1.getLast? =
         some (resolveUrls cwEnv.manifest cwEnv.animals "Farm").length)) :=
  ⟨by decide, by decide,
    c7_progress_reports_monotone cwEnv initState "Farm"
      (by decide) (by decide)⟩

/-- Claim C9: downloadCategory on a fresh name with zero matching content
items (any name outside the content index, priority list included or not)
succeeds as a no-op download: no progress reports, no fetches, a
CategoryRecord with asset count 0, the name joins the in-memory set and
from then on counts toward the getDownloadProgress numerator. -/
theorem c9_unknown_category_counts (env : Env) (s : SysState) (N : String)
    (hanimals : env.animals.filter (fun a => a.category == N) = [])
    (hmem : N ∉ s.mem.downloadedCategories)
    (hdb : dbGetCategory s.db N = none) :
    (downloadCategory env s N).2.1 = [] ∧
    (downloadCategory env s N).2.2 = [] ∧
    dbGetCategory (downloadCategory env s N).1.db N =
      some { name := N, downloadedAt := env.now, animalCount := 0 } ∧
    isCategoryDownloaded (downloadCategory env s N).1 N = true ∧
    (downloadCategory env s N).1.mem.downloadedCategories.length =
      s.mem.downloadedCategories.length + 1 ∧
    getDownloadProgress (downloadCategory env s N).1 =
      ((s.mem.downloadedCategories.length : ℚ) + 1) /
        (CATEGORY_PRIORITY.length : ℚ) * 100 := by
  have hurls : resolveUrls env.manifest env.animals N = [] := by
    unfold resolveUrls
    rw [hanimals]
    rfl
  unfold downloadCategory
  simp only [List.elem_eq_mem, hmem, decide_False, Bool.false_eq_true,
    if_false, hdb, hurls, List.length_nil, prefetchUrls, List.isEmpty_nil,
    if_true]
  refine ⟨trivial, trivial, ?_, ?_, ?_, ?_⟩
  · exact dbGetCategory_put_new s.db _ hdb
  · simp [isCategoryDownloaded, insertNew_mem_self]
  · exact insertNew_length_new s.mem.downloadedCategories N hmem
  · rw [getDownloadProgress_eq]
    have hlen : (insertNew s.mem.downloadedCategories N).length =
        s.mem.downloadedCategories.length + 1 :=
      insertNew_length_new s.mem.downloadedCategories N hmem
    rw [hlen]
    have h10 : (CATEGORY_PRIORITY.length : ℚ) = 10 := by
      norm_num [CATEGORY_PRIORITY]
    rw [h10]
    push_cast
    ring

/-- Witness for C9: downloading the off-list name Alphabet against an empty
content index from the initial state. -/
theorem c9_unknown_category_counts_witness :
    c8Env.animals.filter (fun a => a.category == "Alphabet") = [] ∧
    ("Alphabet" ∉ initState.mem.downloadedCategories) ∧
    dbGetCategory initState.db "Alphabet" = none ∧
    ((downloadCategory c8Env initState "Alphabet").2.1 = [] ∧
     (downloadCategory c8Env initState "Alphabet").2.2 = [] ∧
     dbGetCategory (downloadCategory c8Env initState "Alphabet").1.db
        "Alphabet" =
       some { name := "Alphabet", downloadedAt := c8Env.now,
              animalCount := 0 } ∧
     isCategoryDownloaded (downloadCategory c8Env initState "Alphabet").1
        "Alphabet" = true ∧
     (downloadCategory c8Env initState
        "Alphabet").1.mem.downloadedCategories.length =
       initState.mem.downloadedCategories.length + 1 ∧
     getDownloadProgress (downloadCategory c8Env initState "Alphabet").1 =
       ((initState.mem.downloadedCategories.length : ℚ) + 1) /
         (CATEGORY_PRIORITY.length : ℚ) * 100) :=
  ⟨by decide, by decide, by decide,
    c9_unknown_category_counts c8Env initState "Alphabet"
      (by decide) (by decide) (by decide)⟩

end AAC
